import Mathlib

/-!
Verification of `t/helper/test-simple-ipc.c`, the test application sitting on
top of the simple-ipc transport.  Byte buffers are modelled as `List Char`
(C strings never contain NUL, and every byte handled here is ASCII).  The
functions of the simple-ipc library itself (`ipc_server_run`,
`ipc_get_active_state`, `ipc_client_send_command`) are not part of the
sources; where a claim depends on them, their observable results enter the
model as explicit parameters (oracles), and the single invariant needed from
the library is modelled from the spec and marked as such.
-/

/-- Character for a single decimal digit d (0 ≤ d ≤ 9), as printf would emit it. -/
def digChar (d : Nat) : Char := Char.ofNat (48 + d)

/-- Fuel-driven decimal rendering of a natural number, most significant digit
first.  The fuel is only a structural-recursion device: with fuel ≥ n the
value is the usual decimal numeral of n. -/
def decDigitsAux (fuel : Nat) (n : Nat) : List Char :=
  match fuel with
  | 0 => [digChar (n % 10)]
  | fuel + 1 =>
    if n < 10 then [digChar n]
    else decDigitsAux fuel (n / 10) ++ [digChar (n % 10)]

/-- Decimal numeral of n, as printf %d emits it for a non-negative value. -/
def decDigits (n : Nat) : List Char := decDigitsAux n n

/-- Zero-padded decimal rendering of n to at least `width` characters: the
semantics of printf %0*d and of %.*d for non-negative values ("%08d" and
"%.75d" in the source). -/
def zeroPad (width : Nat) (n : Nat) : List Char :=
  List.replicate (width - (decDigits n).length) '0' ++ decDigits n

/-- The return code of the callback requesting server shutdown.  Modelled from
the spec: `SIMPLE_IPC_QUIT` is defined by `simple-ipc.h`, which is not among
the sources; the spec describes it as a distinguished control value, distinct
from the success (0) and error (negative one) results of `reply_cb`. -/
def SIMPLE_IPC_QUIT : Int := -2

/-- Model of `static int my_app_data = 42`: the address of the application
instance datum.  Pointers are modelled as natural numbers; the concrete
numeral is arbitrary and only ever compared for equality. -/
def my_app_data_addr : Nat := 42

/-- Embedding of `app__unhandled_command`: reply with one buffer
"unhandled command: %s".  The first component is the result handed back
(the `reply_cb` result, 0 on success), the second the list of reply
buffers emitted via `reply_cb`, in order. -/
def app__unhandled_command (command : List Char) : Int × List (List Char) :=
  (0, ["unhandled command: ".data ++ command])

/-- BIG_ROWS of the source. -/
def BIG_ROWS : Nat := 10000

/-- CHUNK_ROWS of the source. -/
def CHUNK_ROWS : Nat := 10000

/-- SLOW_ROWS of the source. -/
def SLOW_ROWS : Nat := 1000

/-- One row of the big/chunk/slow responses: `strbuf_addf(&buf, "big: %.75d\n", row)`. -/
def bigLine (row : Nat) : List Char := "big: ".data ++ zeroPad 75 row ++ "\n".data

/-- The single buffer accumulated by `app__big_command`: the strbuf starts
empty and each loop iteration appends one row. -/
def app__big_command_reply : List Char :=
  (List.range BIG_ROWS).foldl (fun buf row => buf ++ bigLine row) []

/-- Embedding of `app__big_command`: one `reply_cb` call carrying the whole
accumulated buffer. -/
def app__big_command : Int × List (List Char) :=
  (0, [app__big_command_reply])

/-- The reply buffers emitted by `app__chunk_command`: the strbuf is reset to
length 0 each iteration, so each `reply_cb` call carries exactly one row. -/
def app__chunk_command_chunks : List (List Char) :=
  (List.range CHUNK_ROWS).map bigLine

/-- Embedding of `app__chunk_command`: one `reply_cb` call per row. -/
def app__chunk_command : Int × List (List Char) :=
  (0, app__chunk_command_chunks)

/-- Embedding of `app__slow_command`: identical to the chunk command except
for the (unobservable in this model) sleep between rows, and SLOW_ROWS rows. -/
def app__slow_command : Int × List (List Char) :=
  (0, (List.range SLOW_ROWS).map bigLine)

/-- Embedding of `app__sendbytes_command`.  `skip_prefix` either strips
"sendbytes " from the received command (and `strlen` measures the rest), or
leaves p = "?" with len_ballast = 0.  The loop counts, over the positions
after the first, the bytes differing from the first byte p[0]; for an empty
ballast p[0] reads the NUL terminator. -/
def app__sendbytes_command (received : List Char) : Int × List (List Char) :=
  let p := if ("sendbytes ".data).isPrefixOf received
           then received.drop ("sendbytes ".data).length
           else "?".data
  let len_ballast := if ("sendbytes ".data).isPrefixOf received then p.length else 0
  let p0 := p.headD '\x00'
  let errs := (p.drop 1).countP (fun c => c != p0)
  let reply := if errs ≠ 0
    then "errs:".data ++ decDigits errs ++ "\n".data
    else "rcvd:".data ++ [p0] ++ zeroPad 8 len_ballast ++ "\n".data
  (0, [reply])

/-- Embedding of `test_app_cb`.  The result is `none` when the BUG guard on
the application-data pointer fires; otherwise `some (ret, replies)` with the
callback return value and the ordered list of `reply_cb` payloads. -/
def test_app_cb (application_data : Nat) (command : List Char) :
    Option (Int × List (List Char)) :=
  if application_data ≠ my_app_data_addr then none
  else if command = "quit".data then some (SIMPLE_IPC_QUIT, [])
  else if command = "ping".data then some (0, ["pong".data])
  else if command = "big".data then some app__big_command
  else if command = "chunk".data then some app__chunk_command
  else if command = "slow".data then some app__slow_command
  else if ("sendbytes ".data).isPrefixOf command then some (app__sendbytes_command command)
  else some (app__unhandled_command command)

/-- Modelled from the spec: `ipc_server_run` is not among the sources.  Spec
section 3 requires that "The application-context reference passed to every
callback invocation is numerically identical across the run lifetime", so a
run started with context `ctx` hands exactly `ctx` to each of its
`nrInvocations` callback invocations. -/
def ipc_server_run_contexts (ctx : Nat) (nrInvocations : Nat) : List Nat :=
  List.replicate nrInvocations ctx

/-- Thread-count clamp of `daemon__run_server`: the parsed --threads value
(default 5) is raised to 1 when below 1 before `ipc_server_run` is called. -/
def daemon__run_server_nr_threads (threads_option : Int) : Int :=
  if threads_option < 1 then 1 else threads_option

/-- Thread-count clamp of `daemon__start_server`, identical to the one in
`daemon__run_server`. -/
def daemon__start_server_nr_threads (threads_option : Int) : Int :=
  if threads_option < 1 then 1 else threads_option

/-- The five server-liveness classifications of `enum ipc_active_state`. -/
inductive IpcActiveState where
  | LISTENING
  | NOT_LISTENING
  | PATH_NOT_FOUND
  | INVALID_PATH
  | OTHER_ERROR
deriving DecidableEq

/-- Embedding of `client__probe_server`, applied to the state the probe
observed.  The result pairs the return value (0 for a live server, the
error() result, negative one, otherwise) with the classification message
passed to error(), with the path substituted for %s. -/
def client__probe_server (path : List Char) (s : IpcActiveState) :
    Int × Option (List Char) :=
  match s with
  | .LISTENING => (0, none)
  | .NOT_LISTENING =>
      (-1, some ("no server listening at '".data ++ path ++ "'".data))
  | .PATH_NOT_FOUND =>
      (-1, some ("path not found '".data ++ path ++ "'".data))
  | .INVALID_PATH =>
      (-1, some ("invalid pipe/socket name '".data ++ path ++ "'".data))
  | .OTHER_ERROR =>
      (-1, some ("other error for '".data ++ path ++ "'".data))

/-- The polling loop of `client__stop_server`.  Each list entry is one
iteration: the state `ipc_get_active_state` reported and the wall-clock value
`time(&now)` read afterwards.  A state other than LISTENING returns 0 at
once; otherwise the loop errors out (error() returns negative one) as soon as
now exceeds the time limit, and keeps polling while now is within it.
`none` means the supplied observation list was exhausted with the loop still
running. -/
def stop_server_poll_loop (time_limit : Nat) :
    List (IpcActiveState × Nat) → Option Int
  | [] => none
  | (s, now) :: rest =>
    if s ≠ IpcActiveState.LISTENING then some 0
    else if now > time_limit then some (-1)
    else stop_server_poll_loop time_limit rest

/-- Embedding of `client__stop_server`: if sending "quit" failed, its result
is returned unchanged, otherwise the polling loop decides the result. -/
def client__stop_server (send_quit_result : Int) (time_limit : Nat)
    (polls : List (IpcActiveState × Nat)) : Option Int :=
  if send_quit_result ≠ 0 then some send_quit_result
  else stop_server_poll_loop time_limit polls

/-- Embedding of `multiple_thread_proc` for one client thread: request k of
the batch fails when `requestFails k` holds; the pair is
(sum_errors, sum_good) after the batch loop. -/
def multiple_thread_proc (requestFails : Nat → Bool) (batchsize : Nat) :
    Nat × Nat :=
  ((List.range batchsize).countP requestFails,
   (List.range batchsize).countP (fun k => ! requestFails k))

/-- Clamp of the parsed --threads / --batchsize / --bytecount options in
`client__multiple`: a value below 1 is raised to 1. -/
def clamp_min1 (x : Int) : Nat := if x < 1 then 1 else x.toNat

/-- Outcome of `client__multiple`: the process exit status and the three
counters it accumulates while joining the threads. -/
structure MultipleResult where
  exit_code : Int
  sum_good : Nat
  sum_join_errors : Nat
  sum_thread_errors : Nat
deriving DecidableEq

/-- Embedding of `client__multiple` in the run where every
`pthread_create` succeeds: thread k runs `multiple_thread_proc` with fault
oracle `requestFails k`, `pthread_join` of thread k fails when `joinFails k`
holds, and the exit status is 1 exactly when the join errors and the
per-request errors do not sum to zero. -/
def client__multiple (requestFails : Nat → Nat → Bool) (joinFails : Nat → Bool)
    (nr_threads batchsize : Int) : MultipleResult :=
  let N := clamp_min1 nr_threads
  let M := clamp_min1 batchsize
  let per := (List.range N).map (fun k => multiple_thread_proc (requestFails k) M)
  let sum_thread_errors := (per.map Prod.fst).sum
  let sum_good := (per.map Prod.snd).sum
  let sum_join_errors := (List.range N).countP joinFails
  { exit_code := if sum_join_errors + sum_thread_errors ≠ 0 then 1 else 0
    sum_good := sum_good
    sum_join_errors := sum_join_errors
    sum_thread_errors := sum_thread_errors }

/-- Results of the dispatch functions `cmd__simple_ipc` may call; each is an
error()-style int (0 success, negative on failure).  `probe` stands for the
`client__probe_server` result at the point where it is consulted. -/
structure DispatchResults where
  probe : Int
  run_daemon : Int
  start_daemon : Int
  stop_daemon : Int
  send : Int
  sendbytes : Int
  multiple : Int
deriving DecidableEq

/-- The double-negation normalization `!!x` applied by `cmd__simple_ipc` to
every dispatch result. -/
def bangbang (x : Int) : Int := if x ≠ 0 then 1 else 0

/-- Embedding of `cmd__simple_ipc`: the guards are those of the source, in
source order, with argc = argv.length; `none` models reaching
die("Unhandled argv[1]"). -/
def cmd__simple_ipc (argv : List (List Char)) (r : DispatchResults) : Option Int :=
  if argv.length = 2 ∧ argv.getD 1 [] = "SUPPORTS_SIMPLE_IPC".data then some 0
  else if argv.length = 2 ∧ argv.getD 1 [] = "is-active".data then some (bangbang r.probe)
  else if argv.length ≥ 2 ∧ argv.getD 1 [] = "run-daemon".data then some (bangbang r.run_daemon)
  else if argv.length ≥ 2 ∧ argv.getD 1 [] = "start-daemon".data then some (bangbang r.start_daemon)
  else if r.probe ≠ 0 then some 1
  else if argv.length ≥ 2 ∧ argv.getD 1 [] = "stop-daemon".data then some (bangbang r.stop_daemon)
  else if (argv.length = 2 ∨ argv.length = 3) ∧ argv.getD 1 [] = "send".data then some (bangbang r.send)
  else if argv.length ≥ 2 ∧ argv.getD 1 [] = "sendbytes".data then some (bangbang r.sendbytes)
  else if argv.length ≥ 2 ∧ argv.getD 1 [] = "multiple".data then some (bangbang r.multiple)
  else none

theorem decDigitsAux_length_le (fuel : Nat) : ∀ (n k : Nat), 1 ≤ k → n < 10 ^ k →
    (decDigitsAux fuel n).length ≤ k := by
  induction fuel with
  | zero => intro n k hk _; simpa [decDigitsAux] using hk
  | succ fuel ih =>
    intro n k hk hlt
    by_cases h10 : n < 10
    · simpa [decDigitsAux, h10] using hk
    · have hk2 : 2 ≤ k := by
        rcases Nat.lt_or_ge k 2 with h2 | h2
        · exfalso
          have hk1 : k = 1 := by omega
          subst hk1
          simp [pow_one] at hlt
          omega
        · exact h2
      have hpow : 10 ^ (k - 1) * 10 = 10 ^ k := by
        have hs : k - 1 + 1 = k := by omega
        calc 10 ^ (k - 1) * 10 = 10 ^ (k - 1 + 1) := by rw [pow_succ]
          _ = 10 ^ k := by rw [hs]
      have hdiv : n / 10 < 10 ^ (k - 1) :=
        Nat.div_lt_iff_lt_mul (by norm_num) |>.mpr (by omega)
      have := ih (n / 10) (k - 1) (by omega) hdiv
      simp only [decDigitsAux, if_neg h10, List.length_append, List.length_cons,
        List.length_nil]
      omega

theorem decDigits_length_le (n k : Nat) (hk : 1 ≤ k) (h : n < 10 ^ k) :
    (decDigits n).length ≤ k :=
  decDigitsAux_length_le n n k hk h

theorem zeroPad_length (w n : Nat) (h : (decDigits n).length ≤ w) :
    (zeroPad w n).length = w := by
  simp [zeroPad, List.length_append, List.length_replicate]
  omega

theorem bigLine_length (row : Nat) (h : row < 100000) : (bigLine row).length = 81 := by
  have h5 : (decDigits row).length ≤ 5 :=
    decDigits_length_le row 5 (by norm_num) (by omega)
  have h75 : (zeroPad 75 row).length = 75 := zeroPad_length 75 row (by omega)
  simp [bigLine, List.length_append, h75]

theorem foldl_append_eq_flatten (f : Nat → List Char) :
    ∀ (l : List Nat) (a : List Char),
      l.foldl (fun buf x => buf ++ f x) a = a ++ (l.map f).flatten := by
  intro l
  induction l with
  | nil => intro a; simp
  | cons x xs ih => intro a; simp [List.foldl_cons, ih, List.append_assoc]

theorem flatten_length_const (c : Nat) :
    ∀ (L : List (List Char)), (∀ x ∈ L, x.length = c) →
      L.flatten.length = L.length * c := by
  intro L
  induction L with
  | nil => intro _; simp
  | cons x xs ih =>
    intro h
    simp only [List.flatten_cons, List.length_append, List.length_cons]
    rw [h x (by simp), ih (fun y hy => h y (by simp [hy]))]
    ring

theorem big_reply_eq_flatten :
    app__big_command_reply = ((List.range 10000).map bigLine).flatten := by
  show (List.range BIG_ROWS).foldl (fun buf row => buf ++ bigLine row) [] = _
  rw [foldl_append_eq_flatten]
  rw [List.nil_append]
  rfl

theorem chunks_flatten_eq_reply :
    app__chunk_command_chunks.flatten = app__big_command_reply := by
  rw [big_reply_eq_flatten]
  show ((List.range CHUNK_ROWS).map bigLine).flatten = _
  rfl

theorem big_reply_length : app__big_command_reply.length = 810000 := by
  rw [big_reply_eq_flatten]
  rw [flatten_length_const 81]
  · rw [List.length_map, List.length_range]
  · intro x hx
    rcases List.mem_map.mp hx with ⟨row, hrow, rfl⟩
    exact bigLine_length row (by have := List.mem_range.mp hrow; omega)

/-- C2: the concatenation of the 10,000 fragments emitted by
`app__chunk_command` (one `reply_cb` call per row) is byte-for-byte the
single buffer emitted by `app__big_command` in one `reply_cb` call, and both
equal the concatenation over row = 0..9999 of "big: " followed by the
75-digit zero-padded row number and a newline. -/
theorem chunk_concat_equals_big_reply :
    (app__chunk_command_chunks.flatten = app__big_command_reply) ∧
    (app__big_command_reply =
      ((List.range 10000).map
        (fun row => "big: ".data ++ zeroPad 75 row ++ "\n".data)).flatten) := by
  have hline : bigLine = fun row => "big: ".data ++ zeroPad 75 row ++ "\n".data := rfl
  refine ⟨chunks_flatten_eq_reply, ?_⟩
  rw [big_reply_eq_flatten, hline]

/-- C9 (amended): the big reply totals exactly 810,000 bytes, as does the
concatenation of the chunked reply; each of the 10,000 rows contributes
81 bytes (5 prefix bytes, 75 digits, 1 newline), not about 80. -/
theorem big_reply_total_bytes :
    app__big_command_reply.length = 810000 ∧
    app__chunk_command_chunks.flatten.length = 810000 := by
  refine ⟨big_reply_length, ?_⟩
  rw [chunks_flatten_eq_reply]
  exact big_reply_length

/-- C9 counterexample: the buffer built by `app__big_command` does not have
length 800,000 as claimed; it has length 810,000. -/
theorem big_reply_not_800000 : app__big_command_reply.length ≠ 800000 := by
  rw [big_reply_length]
  decide

theorem test_app_cb_isSome (cmd : List Char) :
    test_app_cb my_app_data_addr cmd ≠ none := by
  intro hnone
  unfold test_app_cb at hnone
  rw [if_neg (by exact fun h => h rfl)] at hnone
  iterate 6 (split at hnone; · exact Option.noConfusion hnone)
  exact Option.noConfusion hnone

/-- C3: on the command "quit", `test_app_cb` returns SIMPLE_IPC_QUIT and
performs no `reply_cb` call on that connection, so a quit request carries no
reply payload. -/
theorem quit_returns_quit_without_reply :
    test_app_cb my_app_data_addr "quit".data = some (SIMPLE_IPC_QUIT, []) := by
  decide

/-- C4: every callback invocation of a server run started with the address of
my_app_data as application context receives exactly that address, so the BUG
branch of `test_app_cb` is unreachable there.  The run model
`ipc_server_run_contexts` is modelled from the spec, `ipc_server_run` itself
not being among the sources. -/
theorem application_data_roundtrip (n : Nat) (cmd : List Char) (ctx : Nat)
    (h : ctx ∈ ipc_server_run_contexts my_app_data_addr n) :
    ctx = my_app_data_addr ∧ test_app_cb ctx cmd ≠ none := by
  have hctx : ctx = my_app_data_addr :=
    (List.mem_replicate.mp h).2
  subst hctx
  exact ⟨rfl, test_app_cb_isSome cmd⟩

/-- Witness for C4 at a concrete run of three invocations and the ping
command. -/
theorem application_data_roundtrip_witness :
    my_app_data_addr ∈ ipc_server_run_contexts my_app_data_addr 3 ∧
    (my_app_data_addr = my_app_data_addr ∧
      test_app_cb my_app_data_addr "ping".data ≠ none) :=
  ⟨by decide, application_data_roundtrip 3 "ping".data my_app_data_addr (by decide)⟩

/-- C8: both daemon entry points clamp a --threads value below 1 up to 1, so
`ipc_server_run` is always invoked with at least one thread. -/
theorem nr_threads_clamped_min1 (t : Int) :
    1 ≤ daemon__run_server_nr_threads t ∧ 1 ≤ daemon__start_server_nr_threads t := by
  unfold daemon__run_server_nr_threads daemon__start_server_nr_threads
  constructor <;> split <;> omega

theorem isPrefixOf_append_self : ∀ (a b : List Char), a.isPrefixOf (a ++ b) = true := by
  intro a b
  induction a with
  | nil => simp [List.isPrefixOf]
  | cons x xs ih => simp [List.isPrefixOf, ih]

theorem errs_msg_ne_rcvd_msg (x y : List Char) :
    "errs:".data ++ x ≠ "rcvd:".data ++ y := by
  have he : "errs:".data = 'e' :: "rrs:".data := by decide
  have hr : "rcvd:".data = 'r' :: "cvd:".data := by decide
  rw [he, hr]
  intro h
  rw [List.cons_append, List.cons_append] at h
  exact absurd (List.cons.inj h).1 (by decide)

/-- C1: on a command "sendbytes " followed by a ballast string,
`app__sendbytes_command` replies with exactly "rcvd:" followed by the first
ballast byte and the 8-digit zero-padded ballast length if and only if every
ballast byte equals the first byte; otherwise it replies "errs:" followed by
the number of positions after the first whose byte differs from the first
byte. -/
theorem sendbytes_reply_classifies (ballast : List Char) (hne : ballast ≠ []) :
    ((app__sendbytes_command ("sendbytes ".data ++ ballast)).2 =
        ["rcvd:".data ++ [ballast.headD '\x00'] ++ zeroPad 8 ballast.length ++ "\n".data]
      ↔ ∀ b ∈ ballast, b = ballast.headD '\x00') ∧
    ((¬ ∀ b ∈ ballast, b = ballast.headD '\x00') →
      (app__sendbytes_command ("sendbytes ".data ++ ballast)).2 =
        ["errs:".data ++
          decDigits ((ballast.drop 1).countP (fun c => c != ballast.headD '\x00')) ++
          "\n".data]) := by
  cases ballast with
  | nil => exact absurd rfl hne
  | cons a as =>
    have hpf := isPrefixOf_append_self ("sendbytes ".data) (a :: as)
    have hdrop : ("sendbytes ".data ++ (a :: as)).drop ("sendbytes ".data).length
        = a :: as := List.drop_left _ _
    simp only [app__sendbytes_command, hpf, if_true, hdrop, List.drop_succ_cons,
      List.drop_zero, List.headD_cons]
    have hcount : (as.countP (fun c => c != a) = 0) ↔ ∀ b ∈ a :: as, b = a := by
      rw [List.countP_eq_zero]
      simp [bne_iff_ne]
    by_cases hz : as.countP (fun c => c != a) = 0
    · rw [if_neg (by omega)]
      constructor
      · simp only [List.cons.injEq, and_true]
        constructor
        · intro _; exact hcount.mp hz
        · intro _; trivial
      · intro hall; exact absurd (hcount.mp hz) hall
    · rw [if_pos hz]
      constructor
      · constructor
        · intro h
          exfalso
          exact errs_msg_ne_rcvd_msg _ _ (by
            have := (List.cons.inj h).1
            simp only [List.append_assoc] at this
            exact this)
        · intro hall; exact absurd (hcount.mpr hall) hz
      · intro _; rfl

/-- Witness for C1 at the concrete ballast "aaa". -/
theorem sendbytes_reply_classifies_witness :
    "aaa".data ≠ [] ∧
    (((app__sendbytes_command ("sendbytes ".data ++ "aaa".data)).2 =
        ["rcvd:".data ++ ["aaa".data.headD '\x00'] ++ zeroPad 8 "aaa".data.length ++
          "\n".data]
      ↔ ∀ b ∈ "aaa".data, b = "aaa".data.headD '\x00') ∧
     ((¬ ∀ b ∈ "aaa".data, b = "aaa".data.headD '\x00') →
      (app__sendbytes_command ("sendbytes ".data ++ "aaa".data)).2 =
        ["errs:".data ++
          decDigits (("aaa".data.drop 1).countP (fun c => c != "aaa".data.headD '\x00')) ++
          "\n".data])) :=
  ⟨by decide, sendbytes_reply_classifies "aaa".data (by decide)⟩

theorem loop_step_listening (limit now : Nat) (rest : List (IpcActiveState × Nat)) :
    stop_server_poll_loop limit ((IpcActiveState.LISTENING, now) :: rest) =
      if now > limit then some (-1) else stop_server_poll_loop limit rest := by
  simp [stop_server_poll_loop]

theorem loop_all_listening_ne_zero (limit : Nat) :
    ∀ (polls : List (IpcActiveState × Nat)),
      (∀ e ∈ polls, e.1 = IpcActiveState.LISTENING) →
      stop_server_poll_loop limit polls ≠ some 0 := by
  intro polls
  induction polls with
  | nil => intro _ h; exact Option.noConfusion h
  | cons e rest ih =>
    intro h
    have he : e.1 = IpcActiveState.LISTENING := h e (by simp)
    obtain ⟨s, now⟩ := e
    simp only at he
    subst he
    rw [loop_step_listening]
    split
    · intro hc
      exact absurd (Option.some.inj hc) (by decide)
    · exact ih (fun x hx => h x (by simp [hx]))

theorem loop_first_nonlistening (limit : Nat) :
    ∀ (pre : List (IpcActiveState × Nat)) (s : IpcActiveState) (now : Nat)
      (post : List (IpcActiveState × Nat)),
      (∀ e ∈ pre, e.1 = IpcActiveState.LISTENING ∧ e.2 ≤ limit) →
      s ≠ IpcActiveState.LISTENING →
      stop_server_poll_loop limit (pre ++ (s, now) :: post) = some 0 := by
  intro pre
  induction pre with
  | nil =>
    intro s now post _ hs
    simp [stop_server_poll_loop, hs]
  | cons e rest ih =>
    intro s now post h hs
    have he := h e (by simp)
    obtain ⟨a, b⟩ := e
    simp only at he
    obtain ⟨ha, hb⟩ := he
    subst ha
    rw [List.cons_append, loop_step_listening]
    rw [if_neg (by omega)]
    exact ih s now post (fun x hx => h x (by simp [hx])) hs

theorem loop_all_listening_timeout (limit : Nat) :
    ∀ (polls : List (IpcActiveState × Nat)),
      (∀ e ∈ polls, e.1 = IpcActiveState.LISTENING) →
      (∃ e ∈ polls, limit < e.2) →
      stop_server_poll_loop limit polls = some (-1) := by
  intro polls
  induction polls with
  | nil => intro _ hex; simp at hex
  | cons e rest ih =>
    intro h hex
    have he : e.1 = IpcActiveState.LISTENING := h e (by simp)
    obtain ⟨s, now⟩ := e
    simp only at he
    subst he
    rw [loop_step_listening]
    by_cases ht : now > limit
    · rw [if_pos ht]
    · rw [if_neg ht]
      apply ih (fun x hx => h x (by simp [hx]))
      rcases hex with ⟨x, hx, hlt⟩
      rcases List.mem_cons.mp hx with rfl | hxr
      · simp only at hlt
        omega
      · exact ⟨x, hxr, hlt⟩

/-- C5: once the "quit" command was sent successfully, `client__stop_server`
never returns 0 while every poll still observes LISTENING; it returns 0 at
the first poll observing any other state (all earlier polls having been
LISTENING within the time limit); and it returns the error result when every
poll observes LISTENING and the time limit runs out. -/
theorem stop_server_drain (limit : Nat) (polls : List (IpcActiveState × Nat)) :
    ((∀ e ∈ polls, e.1 = IpcActiveState.LISTENING) →
      client__stop_server 0 limit polls ≠ some 0) ∧
    (∀ (pre post : List (IpcActiveState × Nat)) (s : IpcActiveState) (now : Nat),
      polls = pre ++ (s, now) :: post →
      (∀ e ∈ pre, e.1 = IpcActiveState.LISTENING ∧ e.2 ≤ limit) →
      s ≠ IpcActiveState.LISTENING →
      client__stop_server 0 limit polls = some 0) ∧
    ((∀ e ∈ polls, e.1 = IpcActiveState.LISTENING) →
      (∃ e ∈ polls, limit < e.2) →
      client__stop_server 0 limit polls = some (-1)) := by
  have hred : client__stop_server 0 limit polls = stop_server_poll_loop limit polls := by
    simp [client__stop_server]
  refine ⟨?_, ?_, ?_⟩
  · intro h
    rw [hred]
    exact loop_all_listening_ne_zero limit polls h
  · intro pre post s now hsplit hpre hs
    rw [hred, hsplit]
    exact loop_first_nonlistening limit pre s now post hpre hs
  · intro h hex
    rw [hred]
    exact loop_all_listening_timeout limit polls h hex

/-- Witness for C5: a run whose second poll observes NOT_LISTENING in time
returns 0, and a run that only ever observes LISTENING past the limit
returns the error result. -/
theorem stop_server_drain_witness :
    client__stop_server 0 5 [(IpcActiveState.LISTENING, 1),
      (IpcActiveState.NOT_LISTENING, 2)] = some 0 ∧
    client__stop_server 0 5 [(IpcActiveState.LISTENING, 9)] = some (-1) :=
  ⟨(stop_server_drain 5 _).2.1 [(IpcActiveState.LISTENING, 1)] []
      IpcActiveState.NOT_LISTENING 2 rfl (by decide) (by decide),
   (stop_server_drain 5 _).2.2 (by decide) ⟨(IpcActiveState.LISTENING, 9), by decide⟩⟩

theorem countP_add_countP_not {α : Type} (p : α → Bool) (l : List α) :
    l.countP p + l.countP (fun k => ! p k) = l.length := by
  induction l with
  | nil => simp
  | cons a l ih =>
    rw [List.countP_cons, List.countP_cons, List.length_cons]
    by_cases h : p a = true <;> simp [h] <;> omega

theorem thread_proc_total (rf : Nat → Bool) (M : Nat) :
    (multiple_thread_proc rf M).2 + (multiple_thread_proc rf M).1 = M := by
  show (List.range M).countP (fun k => ! rf k) + (List.range M).countP rf = M
  rw [Nat.add_comm, countP_add_countP_not, List.length_range]

theorem sum_snd_add_sum_fst (M : Nat) :
    ∀ (L : List (Nat × Nat)), (∀ x ∈ L, x.2 + x.1 = M) →
      (L.map Prod.snd).sum + (L.map Prod.fst).sum = L.length * M := by
  intro L
  induction L with
  | nil => intro _; simp
  | cons x xs ih =>
    intro h
    simp only [List.map_cons, List.sum_cons, List.length_cons]
    have hx := h x (by simp)
    have := ih (fun y hy => h y (by simp [hy]))
    rw [Nat.succ_mul]
    omega

/-- C6: with every thread created, `client__multiple` issues exactly N times M
sendbytes requests in total (N and M the clamped thread and batch counts:
each request either succeeds or errors, and the two counters sum to N*M), and
exits with status 0 exactly when the join errors and per-request errors sum
to zero, equivalently when all N*M requests completed successfully. -/
theorem multiple_counts_and_exit (rf : Nat → Nat → Bool) (jf : Nat → Bool)
    (nt bs : Int) :
    ((client__multiple rf jf nt bs).sum_good
        + (client__multiple rf jf nt bs).sum_thread_errors
      = clamp_min1 nt * clamp_min1 bs) ∧
    ((client__multiple rf jf nt bs).exit_code = 0 ↔
      (client__multiple rf jf nt bs).sum_join_errors
        + (client__multiple rf jf nt bs).sum_thread_errors = 0) ∧
    ((client__multiple rf jf nt bs).exit_code = 0 ↔
      ((client__multiple rf jf nt bs).sum_join_errors = 0 ∧
       (client__multiple rf jf nt bs).sum_good = clamp_min1 nt * clamp_min1 bs)) := by
  simp only [client__multiple]
  have htotal :
      (((List.range (clamp_min1 nt)).map
          (fun k => multiple_thread_proc (rf k) (clamp_min1 bs))).map Prod.snd).sum
      + (((List.range (clamp_min1 nt)).map
          (fun k => multiple_thread_proc (rf k) (clamp_min1 bs))).map Prod.fst).sum
      = clamp_min1 nt * clamp_min1 bs := by
    rw [sum_snd_add_sum_fst (clamp_min1 bs)]
    · rw [List.length_map, List.length_range]
    · intro x hx
      rcases List.mem_map.mp hx with ⟨k, _, rfl⟩
      exact thread_proc_total (rf k) (clamp_min1 bs)
  refine ⟨htotal, ?_, ?_⟩ <;> split <;> rename_i hcond
  · constructor
    · intro h1; exact absurd h1 (by decide)
    · intro h0; exact absurd h0 hcond
  · simp only [true_iff]
    omega
  · constructor
    · intro h1; exact absurd h1 (by decide)
    · intro h0; omega
  · simp only [true_iff]
    constructor
    · omega
    · omega

theorem msg_ne_of_len (t1 t2 p q : List Char) (h : t1.length ≠ t2.length) :
    t1 ++ p ++ q ≠ t2 ++ p ++ q := by
  intro heq
  have := congrArg List.length heq
  simp only [List.length_append] at this
  omega

/-- C7: `client__probe_server` returns 0 exactly for the LISTENING state and
a nonzero error result for each of the four other states, with a distinct
classification message for each state, so the five outcomes are mutually
exclusive. -/
theorem probe_server_classification (path : List Char) (s t : IpcActiveState) :
    ((client__probe_server path s).1 = 0 ↔ s = IpcActiveState.LISTENING) ∧
    (s ≠ IpcActiveState.LISTENING → (client__probe_server path s).1 ≠ 0) ∧
    (s ≠ t → client__probe_server path s ≠ client__probe_server path t) := by
  refine ⟨?_, ?_, ?_⟩
  · cases s <;> simp [client__probe_server]
  · cases s <;> simp [client__probe_server]
  · intro hst
    cases s <;> cases t <;>
      first
      | exact absurd rfl hst
      | (simp only [client__probe_server, ne_eq, Prod.mk.injEq, Option.some.injEq,
          not_and]
         intro _
         apply msg_ne_of_len
         decide)
      | simp [client__probe_server]

/-- Witness for C7 at a concrete path and the state pair
(NOT_LISTENING, PATH_NOT_FOUND). -/
theorem probe_server_classification_witness :
    (client__probe_server "p".data IpcActiveState.NOT_LISTENING).1 ≠ 0 ∧
    client__probe_server "p".data IpcActiveState.NOT_LISTENING ≠
      client__probe_server "p".data IpcActiveState.PATH_NOT_FOUND :=
  ⟨(probe_server_classification "p".data IpcActiveState.NOT_LISTENING
      IpcActiveState.PATH_NOT_FOUND).2.1 (by decide),
   (probe_server_classification "p".data IpcActiveState.NOT_LISTENING
      IpcActiveState.PATH_NOT_FOUND).2.2 (by decide)⟩

theorem bangbang_zero_or_one (y : Int) : bangbang y = 0 ∨ bangbang y = 1 := by
  unfold bangbang
  split
  · exact Or.inr rfl
  · exact Or.inl rfl

/-- C10 (amended): whenever `cmd__simple_ipc` returns at all, the value is
exactly 0 or 1, every dispatch result being normalized by the double
negation; die is reached not only for an unrecognized argv[1] but also for a
recognized sub-command whose argc guard fails. -/
theorem cmd_exit_zero_or_one (argv : List (List Char)) (r : DispatchResults) (x : Int)
    (h : cmd__simple_ipc argv r = some x) : x = 0 ∨ x = 1 := by
  unfold cmd__simple_ipc at h
  repeat' split at h
  all_goals
    first
    | exact Option.noConfusion h
    | (injection h with h2
       subst h2
       first
       | exact Or.inl rfl
       | exact Or.inr rfl
       | exact bangbang_zero_or_one _)

/-- C10 counterexample: with the recognized sub-command "send" as argv[1] but
argc = 4, and the probe succeeding, `cmd__simple_ipc` falls through every
guard and reaches die, so a recognized argv[1] can also abort via die. -/
theorem recognized_send_reaches_die :
    (["test-tool".data, "send".data, "a".data, "b".data].getD 1 [] = "send".data) ∧
    cmd__simple_ipc ["test-tool".data, "send".data, "a".data, "b".data]
      ⟨0, 0, 0, 0, 0, 0, 0⟩ = none := by
  constructor
  · decide
  · decide

/-- Witness for C10 at the is-active sub-command with all dispatch results 0. -/
theorem cmd_exit_zero_or_one_witness :
    cmd__simple_ipc ["t".data, "is-active".data] ⟨0, 0, 0, 0, 0, 0, 0⟩ = some 0 ∧
    ((0 : Int) = 0 ∨ (0 : Int) = 1) :=
  ⟨by decide,
   cmd_exit_zero_or_one ["t".data, "is-active".data] ⟨0, 0, 0, 0, 0, 0, 0⟩ 0 (by decide)⟩
